import Mathlib

/-!
Shallow embedding of the admission-registry webhook (pkg/webhook.go and the
process entry point) in Lean 4, with theorems checking the specified
behaviour of the admission decision engine: request handling, the whitelist
validation policy, the mutation-required decision and JSON-Patch
construction.
-/

namespace AdmissionRegistry

/-- A container of a pod spec; only the image reference matters here. -/
structure Container where
  image : String
deriving DecidableEq, Repr

/-- The pod spec: the declared list of containers, in order. -/
structure PodSpec where
  containers : List Container
deriving DecidableEq, Repr

/-- A pod as decoded by `json.Unmarshal` into `corev1.Pod` (relevant part). -/
structure Pod where
  spec : PodSpec
deriving DecidableEq, Repr

/-- `metav1.Status`: result code and message. -/
structure Status where
  code : Int
  message : String
deriving DecidableEq, Repr

/-- The value slot of a patch operation (`interface\x7b\x7d` in the source):
either a plain string or a string-to-string map. -/
inductive PatchValue where
  | str (s : String)
  | strMap (m : List (String × String))
deriving DecidableEq, Repr

/-- `patchOperation`: op kind, JSON-pointer path, value. -/
structure PatchOperation where
  op : String
  path : String
  value : PatchValue
deriving DecidableEq, Repr

/-- `admissionv1.AdmissionResponse` (the fields the engine writes).
The patch is kept structured; `json.Marshal` of it never fails for these
value shapes. -/
structure AdmissionResponse where
  uid : String
  allowed : Bool
  result : Option Status
  patch : Option (List PatchOperation)
  patchType : Option String
deriving DecidableEq, Repr

/-- `metav1.ObjectMeta` (relevant part): name, namespace and the annotation
map. `none` models a nil Go map, `some l` a map with entries `l` (first
binding wins on lookup, as Go maps have unique keys). -/
structure ObjectMeta where
  name : String
  namespc : String
  annots : Option (List (String × String))
deriving DecidableEq, Repr

/-- `runtime.RawExtension`: the raw serialized target object. We keep the
bytes abstract and record instead what each `json.Unmarshal` call in the
source would produce from them. -/
structure RawExtension where
  asPod : Except String Pod
  asDeployment : Except String ObjectMeta
  asService : Except String ObjectMeta

/-- `admissionv1.AdmissionRequest` (relevant fields; `kind` is
`req.Kind.Kind`). -/
structure AdmissionRequest where
  uid : String
  kind : String
  namespc : String
  name : String
  object : RawExtension

/-- `admissionv1.AdmissionReview`: the request/response envelope. A nil
`Request` or `Response` pointer is `none`. -/
structure AdmissionReview where
  apiVersion : String
  kind : String
  request : Option AdmissionRequest
  response : Option AdmissionResponse

/-- `WebhookServer`: the whitelist of registry prefixes, fixed at startup. -/
structure WebhookServer where
  whiteListRegistries : List String

/-- Go map read `m[k]` on a possibly-nil `map[string]string`: a missing key
or a nil map yields the zero value `""`. -/
def mapGet (m : Option (List (String × String))) (k : String) : String :=
  match m with
  | none => ""
  | some l =>
    match l.lookup k with
    | none => ""
    | some v => v

/-- `strings.HasPrefix`, modelled on character lists (on valid UTF-8 this
agrees with Go's byte-level check). -/
def goStartsWith (s pre : String) : Bool :=
  pre.data.isPrefixOf s.data

/-- `strings.ToLower` as used here (annotation values), modelled on the
character list. -/
def goToLower (s : String) : String := String.mk (s.data.map Char.toLower)

/-- `strings.Split(s, ",")` on the character list: split at every comma; on
the empty input Go returns a one-element list holding the empty string. -/
def splitCommaList : List Char → List String
  | [] => [""]
  | c :: rest =>
    if c = ',' then "" :: splitCommaList rest
    else
      match splitCommaList rest with
      | [] => [String.mk [c]]
      | s :: ss => String.mk (c :: s.data) :: ss

/-- `strings.Split(s, ",")` from the process entry point. -/
def goSplitComma (s : String) : List String := splitCommaList s.data

/-- `AnnotationMutateKey`. -/
def AnnotationMutateKey : String := "io.ydzs.admission-registry/mutate"

/-- `AnnotationStatusKey`. -/
def AnnotationStatusKey : String := "io.ydzs.admission-registry/status"

/-- The Go panic message for a nil-pointer dereference, used to model the
unchecked `ar.Request` reads. -/
def nilDerefMsg : String :=
  "runtime error: invalid memory address or nil pointer dereference"

/-- An apostrophe, kept out of string literals. -/
def apos : String := String.mk [Char.ofNat 39]

/-- The message of the unsupported-kind branch of `mutate`:
`fmt.Sprintf("Can!t handle the kind(%s) object", req.Kind.Kind)` with `!`
standing for the apostrophe. -/
def kindErrMsg (k : String) : String :=
  "Can" ++ apos ++ "t handle the kind(" ++ k ++ ") object"

/-- `fmt.Sprintf` `%v` of a `[]string`: entries space-separated in square
brackets. -/
def goFmtList (wl : List String) : String :=
  "[" ++ String.intercalate " " wl ++ "]"

/-- The rejection message of `validate` for image `image` and whitelist
`wl`. -/
def validateMessage (image : String) (wl : List String) : String :=
  image ++ " image comes from an untrusted registry! Only images from " ++
    goFmtList wl ++ " are allowed."

/-- The inner loop of `validate`: fold over the whitelist, setting the flag
on any matching prefix (the source keeps scanning after a match; the flag
stays true). -/
def imageWhitelisted (wl : List String) (image : String) : Bool :=
  wl.foldl (fun acc reg => if goStartsWith image reg then true else acc) false

/-- The all-containers-compliant response of `validate`. -/
def allowResp : AdmissionResponse :=
  { uid := "", allowed := true, result := some { code := 200, message := "" },
    patch := none, patchType := none }

/-- The rejection response of `validate` for the offending image. -/
def denyResp (image : String) (wl : List String) : AdmissionResponse :=
  { uid := "", allowed := false,
    result := some { code := 403, message := validateMessage image wl },
    patch := none, patchType := none }

/-- The outer loop of `validate` over `pod.Spec.Containers`: stop and
reject at the first container whose image matches no whitelist entry. -/
def validateLoop (wl : List String) : List Container → AdmissionResponse
  | [] => allowResp
  | c :: rest =>
    if imageWhitelisted wl c.image then validateLoop wl rest
    else denyResp c.image wl

/-- `validate` applied to an already-decoded pod (lines 142-164 of the
source). -/
def validatePod (wl : List String) (pod : Pod) : AdmissionResponse :=
  validateLoop wl pod.spec.containers

/-- `(s *WebhookServer) validate`: dereferences `ar.Request` with no nil
check (modelled as a panic), then unmarshals the raw object into a pod and
runs the whitelist loop. -/
def validate (wl : List String) (ar : AdmissionReview) :
    Except String AdmissionResponse :=
  match ar.request with
  | none => Except.error nilDerefMsg
  | some req =>
    match req.object.asPod with
    | Except.error e =>
      Except.ok { uid := "", allowed := false,
                  result := some { code := 400, message := e },
                  patch := none, patchType := none }
    | Except.ok pod => Except.ok (validatePod wl pod)

/-- `mutationRequired`: the switch on the lower-cased mutate directive,
then the override by the mutation-status marker. -/
def mutationRequired (metadata : ObjectMeta) : Bool :=
  let directive := goToLower (mapGet metadata.annots AnnotationMutateKey)
  let required :=
    if directive = "n" ∨ directive = "no" ∨ directive = "false" ∨
        directive = "off" then false else true
  let status := mapGet metadata.annots AnnotationStatusKey
  if goToLower status = "mutated" then false else required

/-- `mutateAnnotations`: iterate the added entries; a nil target map or an
empty/absent current value yields an `add` of a single-entry map at the
annotations path (and the local target becomes an empty non-nil map, as in
the source), otherwise a `replace` at the key path. -/
def mutateAnnotations :
    Option (List (String × String)) → List (String × String) →
    List PatchOperation
  | _, [] => []
  | target, (k, v) :: rest =>
    if target = none ∨ mapGet target k = "" then
      PatchOperation.mk "add" "/metadata/annotations"
          (PatchValue.strMap [(k, v)]) ::
        mutateAnnotations (some []) rest
    else
      PatchOperation.mk "replace" ("/metadata/annotations/" ++ k)
          (PatchValue.str v) ::
        mutateAnnotations target rest

/-- The per-object part of `mutate` after kind dispatch and unmarshal:
no-op response when mutation is not required, otherwise the built patch
with patch type JSONPatch. -/
def mutateMeta (metadata : ObjectMeta) : AdmissionResponse :=
  if mutationRequired metadata then
    { uid := "", allowed := true, result := none,
      patch := some (mutateAnnotations metadata.annots
        [(AnnotationStatusKey, "mutated")]),
      patchType := some "JSONPatch" }
  else
    { uid := "", allowed := true, result := none, patch := none,
      patchType := none }

/-- The unmarshal-failure response of `mutate` (allowed stays at the zero
value false). -/
def unmarshalErrResp (e : String) : AdmissionResponse :=
  { uid := "", allowed := false, result := some { code := 400, message := e },
    patch := none, patchType := none }

/-- `(s *WebhookServer) mutate`: dereferences `ar.Request` with no nil
check (modelled as a panic), dispatches on `req.Kind.Kind`, rejects
unsupported kinds with a 400 result. -/
def mutate (ar : AdmissionReview) : Except String AdmissionResponse :=
  match ar.request with
  | none => Except.error nilDerefMsg
  | some req =>
    if req.kind = "Deployment" then
      match req.object.asDeployment with
      | Except.error e => Except.ok (unmarshalErrResp e)
      | Except.ok metadata => Except.ok (mutateMeta metadata)
    else if req.kind = "Service" then
      match req.object.asService with
      | Except.error e => Except.ok (unmarshalErrResp e)
      | Except.ok metadata => Except.ok (mutateMeta metadata)
    else
      Except.ok { uid := "", allowed := false,
                  result := some { code := 400, message := kindErrMsg req.kind },
                  patch := none, patchType := none }

/-- One inbound HTTP request as the handler sees it: whether the read body
came out empty (or unreadable), the content-type header, the URL path, and
the outcome of `deserializer.Decode` on the body — the error, if any, and
the state of the `requestedAdmissionReview` variable after the call. -/
structure HttpRequest where
  bodyEmpty : Bool
  contentType : String
  path : String
  decodeErr : Option String
  decoded : AdmissionReview

/-- What the handler does at the transport layer: an `http.Error` with a
status and literal body, a serialized `AdmissionReview` envelope written
with HTTP 200, or a Go panic. -/
inductive HttpResult where
  | httpError (status : Int) (body : String)
  | ok (envelope : AdmissionReview)
  | panicked (msg : String)

/-- `(s *WebhookServer) Handler`: empty-body check, content-type check,
decode, route by path, build and serialize the response envelope, echoing
apiVersion/kind and — when a decoded request is present — its UID. -/
def Handler (s : WebhookServer) (r : HttpRequest) : HttpResult :=
  if r.bodyEmpty then HttpResult.httpError 400 "empty data body"
  else if r.contentType ≠ "application/json" then
    HttpResult.httpError 400 "Content-Type invalid, expect application/json"
  else
    let arE : Except String (Option AdmissionResponse) :=
      match r.decodeErr with
      | some e =>
        Except.ok (some { uid := "", allowed := false,
                          result := some { code := 500, message := e },
                          patch := none, patchType := none })
      | none =>
        if r.path = "/mutate" then Except.map some (mutate r.decoded)
        else if r.path = "/validate" then
          Except.map some (validate s.whiteListRegistries r.decoded)
        else Except.ok none
    match arE with
    | Except.error p => HttpResult.panicked p
    | Except.ok respOpt =>
      HttpResult.ok
        { apiVersion := r.decoded.apiVersion
          kind := r.decoded.kind
          request := none
          response :=
            match respOpt with
            | none => none
            | some resp =>
              match r.decoded.request with
              | some req => some { resp with uid := req.uid }
              | none => some resp }

/-- The `add` patch operation the engine emits when it sets the status
annotation on a target whose map is nil or whose status value is empty. -/
def statusAddOp : PatchOperation :=
  PatchOperation.mk "add" "/metadata/annotations"
    (PatchValue.strMap [(AnnotationStatusKey, "mutated")])

/-- The `replace` patch operation at the status key path (what the engine
emits when the status key already holds a non-empty value). -/
def statusReplaceOp : PatchOperation :=
  PatchOperation.mk "replace" ("/metadata/annotations/" ++ AnnotationStatusKey)
    (PatchValue.str "mutated")

/-- The UID the handler copies onto the response: the decoded request's UID
when a request is present, the zero value otherwise. -/
def uidOf : Option AdmissionRequest → String
  | some q => q.uid
  | none => ""

/-- The no-op response of `mutate` when mutation is not required. -/
def noOpResp : AdmissionResponse :=
  { uid := "", allowed := true, result := none, patch := none,
    patchType := none }

/-- A sample raw object that decodes as a pod with no containers (and as
nothing else). -/
def emptyPodRaw : RawExtension :=
  { asPod := Except.ok { spec := { containers := [] } },
    asDeployment := Except.error "no", asService := Except.error "no" }

/-- A sample admission request for a pod, with UID "abc". -/
def podRequest : AdmissionRequest :=
  { uid := "abc", kind := "Pod", namespc := "default", name := "p1",
    object := emptyPodRaw }

/-- A sample decoded review wrapping `podRequest`. -/
def podReview : AdmissionReview :=
  { apiVersion := "admission.k8s.io/v1", kind := "AdmissionReview",
    request := some podRequest, response := none }

/-- A sample well-formed HTTP request on the validate path carrying
`podReview`. -/
def validateHttpReq : HttpRequest :=
  { bodyEmpty := false, contentType := "application/json",
    path := "/validate", decodeErr := none, decoded := podReview }

/-- A sample deployment metadata with a nil annotation map. -/
def noAnnotsMeta : ObjectMeta :=
  { name := "d2", namespc := "default", annots := none }

/-- A sample raw object that decodes as a Deployment with `noAnnotsMeta`. -/
def deployRaw : RawExtension :=
  { asPod := Except.error "no", asDeployment := Except.ok noAnnotsMeta,
    asService := Except.error "no" }

/-- A sample admission request for that Deployment. -/
def deployRequest : AdmissionRequest :=
  { uid := "u3", kind := "Deployment", namespc := "default", name := "d2",
    object := deployRaw }

/-- A sample decoded review wrapping `deployRequest`. -/
def deployReview : AdmissionReview :=
  { apiVersion := "admission.k8s.io/v1", kind := "AdmissionReview",
    request := some deployRequest, response := none }

/-- A decoded review whose Request pointer is nil. -/
def nilRequestReview : AdmissionReview :=
  { apiVersion := "admission.k8s.io/v1", kind := "AdmissionReview",
    request := none, response := none }

/-- A well-formed HTTP request on the validate path whose decoded review
has a nil Request. -/
def nilRequestHttpReq : HttpRequest :=
  { bodyEmpty := false, contentType := "application/json",
    path := "/validate", decodeErr := none, decoded := nilRequestReview }

/-- An HTTP request whose body read came out empty, with a non-JSON
content-type. -/
def emptyBodyHttpReq : HttpRequest :=
  { bodyEmpty := true, contentType := "text/plain", path := "/validate",
    decodeErr := none, decoded := nilRequestReview }

/-- An HTTP request with a non-empty body but a non-JSON content-type. -/
def badCtHttpReq : HttpRequest :=
  { bodyEmpty := false, contentType := "text/plain", path := "/validate",
    decodeErr := none, decoded := nilRequestReview }

/-! ## Helper lemmas -/

lemma foldl_flag_eq_any (image : String) (wl : List String) (acc : Bool) :
    wl.foldl (fun a reg => if goStartsWith image reg then true else a) acc =
      (acc || wl.any fun reg => goStartsWith image reg) := by
  induction wl generalizing acc with
  | nil => simp
  | cons reg rest ih =>
    simp only [List.foldl_cons, List.any_cons, ih]
    by_cases h : goStartsWith image reg = true
    · simp [h]
    · simp only [Bool.not_eq_true] at h
      simp [h]

lemma imageWhitelisted_eq_any (wl : List String) (image : String) :
    imageWhitelisted wl image = wl.any fun reg => goStartsWith image reg := by
  unfold imageWhitelisted
  rw [foldl_flag_eq_any]
  simp

lemma imageWhitelisted_true_iff (wl : List String) (image : String) :
    imageWhitelisted wl image = true ↔
      ∃ reg ∈ wl, goStartsWith image reg = true := by
  simp [imageWhitelisted_eq_any, List.any_eq_true]

lemma imageWhitelisted_false_iff (wl : List String) (image : String) :
    imageWhitelisted wl image = false ↔
      ∀ reg ∈ wl, goStartsWith image reg = false := by
  rw [← Bool.not_eq_true, imageWhitelisted_true_iff]
  push_neg
  simp

lemma allowResp_ne_denyResp (image : String) (wl : List String) :
    allowResp ≠ denyResp image wl := by
  simp [allowResp, denyResp]

lemma validateLoop_allow_iff (wl : List String) (cs : List Container) :
    validateLoop wl cs = allowResp ↔
      ∀ c ∈ cs, imageWhitelisted wl c.image = true := by
  induction cs with
  | nil => simp [validateLoop]
  | cons c rest ih =>
    by_cases h : imageWhitelisted wl c.image = true
    · simp [validateLoop, h, ih]
    · simp only [validateLoop, h, if_neg]
      simp only [Bool.not_eq_true] at h
      simp [h, Ne.symm (allowResp_ne_denyResp c.image wl)]

lemma validateLoop_firstBad (wl : List String) (l1 : List Container)
    (c : Container) (l2 : List Container)
    (h1 : ∀ c1 ∈ l1, imageWhitelisted wl c1.image = true)
    (hc : imageWhitelisted wl c.image = false) :
    validateLoop wl (l1 ++ c :: l2) = denyResp c.image wl := by
  induction l1 with
  | nil => simp [validateLoop, hc]
  | cons a rest ih =>
    have ha : imageWhitelisted wl a.image = true := h1 a (by simp)
    simp only [List.cons_append, validateLoop, ha, if_true]
    exact ih fun c1 hm => h1 c1 (by simp [hm])

/-! ## Claims -/

/-- C1: `validate` on a decoded pod returns allowed=true, code 200, empty
message exactly when every container image has some whitelist entry as a
prefix; on the first container whose image has no whitelist entry as a
prefix it returns allowed=false, code 403 and a message naming that image
and the full whitelist — and the result does not depend on the containers
after that first non-compliant one; zero containers are allowed. -/
theorem validate_whitelist_spec (wl : List String) (pod : Pod) :
    (validatePod wl pod = allowResp ↔
      ∀ c ∈ pod.spec.containers, ∃ reg ∈ wl, goStartsWith c.image reg = true)
  ∧ (∀ l1 c l2, pod.spec.containers = l1 ++ c :: l2 →
      (∀ c1 ∈ l1, ∃ reg ∈ wl, goStartsWith c1.image reg = true) →
      (∀ reg ∈ wl, goStartsWith c.image reg = false) →
      validatePod wl pod = denyResp c.image wl ∧
        ∀ l2x, validateLoop wl (l1 ++ c :: l2x) = denyResp c.image wl)
  ∧ (pod.spec.containers = [] → validatePod wl pod = allowResp) := by
  refine ⟨?_, ?_, ?_⟩
  · rw [validatePod, validateLoop_allow_iff]
    constructor
    · intro h c hc
      exact (imageWhitelisted_true_iff wl c.image).mp (h c hc)
    · intro h c hc
      exact (imageWhitelisted_true_iff wl c.image).mpr (h c hc)
  · intro l1 c l2 hsplit h1 hc
    have h1w : ∀ c1 ∈ l1, imageWhitelisted wl c1.image = true := fun c1 hm =>
      (imageWhitelisted_true_iff wl c1.image).mpr (h1 c1 hm)
    have hcw : imageWhitelisted wl c.image = false :=
      (imageWhitelisted_false_iff wl c.image).mpr hc
    refine ⟨?_, fun l2x => validateLoop_firstBad wl l1 c l2x h1w hcw⟩
    rw [validatePod, hsplit]
    exact validateLoop_firstBad wl l1 c l2 h1w hcw
  · intro h
    simp [validatePod, h, validateLoop]

/-- Witness for C1: a one-container pod with image from an untrusted
registry, checked against the whitelist of a single trusted registry. -/
theorem validate_whitelist_spec_witness :
    validatePod ["gcr.io/"] ⟨⟨[⟨"nginx:1.18"⟩]⟩⟩ =
      denyResp "nginx:1.18" ["gcr.io/"] :=
  (((validate_whitelist_spec ["gcr.io/"] ⟨⟨[⟨"nginx:1.18"⟩]⟩⟩).2.1
    [] ⟨"nginx:1.18"⟩ [] rfl (by simp) (by decide)).1)

lemma mutate_eq_mutateMeta (ar : AdmissionReview) (req : AdmissionRequest)
    (metadata : ObjectMeta) (h : ar.request = some req)
    (hkind : (req.kind = "Deployment" ∧
        req.object.asDeployment = Except.ok metadata) ∨
      (req.kind = "Service" ∧ req.object.asService = Except.ok metadata)) :
    mutate ar = Except.ok (mutateMeta metadata) := by
  rcases hkind with ⟨hk, hobj⟩ | ⟨hk, hobj⟩
  · simp [mutate, h, hk, hobj]
  · simp [mutate, h, hk, hobj,
      show ("Service" : String) ≠ "Deployment" by decide]

/-- C2: the spec says that with an existing (non-empty) annotation map that
lacks the mutation-status key, the built patch is a single `replace` at the
key path. On the code an absent key reads as the empty string, which takes
the `add` branch: the patch is a single `add` at the annotations-map path.
This counterexample shows the claim false on the map `{"foo": "bar"}`. -/
theorem mutateAnnotations_absent_key_counterexample :
    mutateAnnotations (some [("foo", "bar")])
        [(AnnotationStatusKey, "mutated")] = [statusAddOp]
  ∧ mutateAnnotations (some [("foo", "bar")])
        [(AnnotationStatusKey, "mutated")] ≠ [statusReplaceOp] := by
  constructor
  · decide
  · decide

/-- C2 (amended): with an existing annotation map whose mutation-status
value is empty or absent, the patch is a single `add` at
/metadata/annotations with the single-entry map value; the `replace` at the
key path appears exactly when the status key holds a non-empty value. -/
theorem mutateAnnotations_existing_map_spec (target : List (String × String)) :
    (mapGet (some target) AnnotationStatusKey = "" →
      mutateAnnotations (some target) [(AnnotationStatusKey, "mutated")] =
        [statusAddOp])
  ∧ (mapGet (some target) AnnotationStatusKey ≠ "" →
      mutateAnnotations (some target) [(AnnotationStatusKey, "mutated")] =
        [statusReplaceOp]) := by
  constructor
  · intro h
    simp [mutateAnnotations, h, statusAddOp]
  · intro h
    simp [mutateAnnotations, h, statusReplaceOp]

/-- Witness for C2 (amended): a map with one unrelated key takes the add
branch. -/
theorem mutateAnnotations_existing_map_spec_witness :
    mutateAnnotations (some [("a", "b")]) [(AnnotationStatusKey, "mutated")] =
      [statusAddOp] :=
  (mutateAnnotations_existing_map_spec [("a", "b")]).1 (by decide)

/-- C3: mutation is not required exactly when the mutation-status
annotation lower-cases to "mutated" or the mutate directive lower-cases to
one of n/no/false/off (both annotations absent means required); when not
required, `mutate` on a supported kind responds allowed=true with no patch
and no patch type. -/
theorem mutationRequired_spec (metadata : ObjectMeta) :
    (mutationRequired metadata = false ↔
      goToLower (mapGet metadata.annots AnnotationStatusKey) = "mutated" ∨
      goToLower (mapGet metadata.annots AnnotationMutateKey) ∈
        (["n", "no", "false", "off"] : List String))
  ∧ (∀ ar req, ar.request = some req →
      ((req.kind = "Deployment" ∧
          req.object.asDeployment = Except.ok metadata) ∨
        (req.kind = "Service" ∧ req.object.asService = Except.ok metadata)) →
      mutationRequired metadata = false →
      mutate ar = Except.ok noOpResp) := by
  constructor
  · simp only [mutationRequired, List.mem_cons, List.not_mem_nil, or_false]
    split_ifs with hs hd
    · simp [hs]
    · simp only [eq_self_iff_true, true_iff]
      exact Or.inr hd
    · push_neg at hd
      obtain ⟨h1, h2, h3, h4⟩ := hd
      simp [hs, h1, h2, h3, h4]
  · intro ar req h hkind hnr
    rw [mutate_eq_mutateMeta ar req metadata h hkind]
    simp [mutateMeta, hnr, noOpResp]

/-- Witness for C3: a Deployment whose mutate directive is "off" is left
alone. -/
theorem mutationRequired_spec_witness :
    mutate
      { apiVersion := "admission.k8s.io/v1", kind := "AdmissionReview",
        request := some
          { uid := "u1", kind := "Deployment", namespc := "default",
            name := "d1",
            object :=
              { asPod := Except.error "not a pod",
                asDeployment := Except.ok
                  { name := "d1", namespc := "default",
                    annots := some [(AnnotationMutateKey, "off")] },
                asService := Except.error "not a service" } },
        response := none } = Except.ok noOpResp :=
  (mutationRequired_spec
    { name := "d1", namespc := "default",
      annots := some [(AnnotationMutateKey, "off")] }).2 _ _ rfl
    (Or.inl ⟨rfl, rfl⟩) (by decide)

lemma validate_some_ok (wl : List String) (ar : AdmissionReview)
    (req : AdmissionRequest) (h : ar.request = some req) :
    ∃ v, validate wl ar = Except.ok v := by
  cases hp : req.object.asPod with
  | error e =>
    exact ⟨{ uid := "", allowed := false,
             result := some { code := 400, message := e },
             patch := none, patchType := none }, by simp [validate, h, hp]⟩
  | ok pod => exact ⟨validatePod wl pod, by simp [validate, h, hp]⟩

lemma mutate_some_ok (ar : AdmissionReview) (req : AdmissionRequest)
    (h : ar.request = some req) : ∃ v, mutate ar = Except.ok v := by
  by_cases h1 : req.kind = "Deployment"
  · cases hp : req.object.asDeployment with
    | error e => exact ⟨unmarshalErrResp e, by simp [mutate, h, h1, hp]⟩
    | ok m => exact ⟨mutateMeta m, by simp [mutate, h, h1, hp]⟩
  · by_cases h2 : req.kind = "Service"
    · cases hp : req.object.asService with
      | error e => exact ⟨unmarshalErrResp e, by simp [mutate, h, h1, h2, hp]⟩
      | ok m => exact ⟨mutateMeta m, by simp [mutate, h, h1, h2, hp]⟩
    · exact ⟨{ uid := "", allowed := false,
               result := some { code := 400, message := kindErrMsg req.kind },
               patch := none, patchType := none },
             by simp [mutate, h, h1, h2]⟩

/-- C4: the claim says every successfully decoded review carrying a request
UID gets that UID echoed on the response, including on paths other than
/validate and /mutate. On those other paths the code computes no decision
and leaves the envelope's response nil, so no UID is echoed anywhere in the
reply: this concrete request on path "/other" with request UID "abc"
refutes the claim. -/
theorem handler_other_path_counterexample :
    Handler { whiteListRegistries := ["docker.io/"] }
      { bodyEmpty := false, contentType := "application/json",
        path := "/other", decodeErr := none,
        decoded :=
          { apiVersion := "admission.k8s.io/v1", kind := "AdmissionReview",
            request := some
              { uid := "abc", kind := "Pod", namespc := "default",
                name := "p1",
                object :=
                  { asPod := Except.ok { spec := { containers := [] } },
                    asDeployment := Except.error "no",
                    asService := Except.error "no" } },
            response := none } } =
      HttpResult.ok
        { apiVersion := "admission.k8s.io/v1", kind := "AdmissionReview",
          request := none, response := none } := rfl

/-- C4 (amended): when the body decodes with a request present, the
response echoes the request UID on the routed paths /validate and /mutate;
on every other path the envelope only echoes apiVersion/kind and wraps a
nil response, so no UID appears. -/
theorem handler_uid_echo_spec (s : WebhookServer) (r : HttpRequest)
    (req : AdmissionRequest) (hbody : r.bodyEmpty = false)
    (hct : r.contentType = "application/json") (hdec : r.decodeErr = none)
    (hreq : r.decoded.request = some req) :
    ((r.path = "/validate" ∨ r.path = "/mutate") →
      ∃ resp, Handler s r = HttpResult.ok
          { apiVersion := r.decoded.apiVersion, kind := r.decoded.kind,
            request := none, response := some resp } ∧
        resp.uid = req.uid)
  ∧ (r.path ≠ "/validate" → r.path ≠ "/mutate" →
      Handler s r = HttpResult.ok
        { apiVersion := r.decoded.apiVersion, kind := r.decoded.kind,
          request := none, response := none }) := by
  constructor
  · rintro (hpath | hpath)
    · obtain ⟨v, hv⟩ := validate_some_ok s.whiteListRegistries r.decoded req hreq
      refine ⟨{ v with uid := req.uid }, ?_, rfl⟩
      simp [Handler, Except.map, hbody, hct, hdec, hpath, hv, hreq,
        show ("/validate" : String) ≠ "/mutate" by decide]
    · obtain ⟨v, hv⟩ := mutate_some_ok r.decoded req hreq
      refine ⟨{ v with uid := req.uid }, ?_, rfl⟩
      simp [Handler, Except.map, hbody, hct, hdec, hpath, hv, hreq]
  · intro h1 h2
    simp [Handler, hbody, hct, hdec, h1, h2]

/-- Witness for C4 (amended): a validate request whose pod decodes; the
response carries the request UID "abc". -/
theorem handler_uid_echo_spec_witness :
    ∃ resp,
      Handler { whiteListRegistries := ["docker.io/"] } validateHttpReq =
        HttpResult.ok
          { apiVersion := validateHttpReq.decoded.apiVersion,
            kind := validateHttpReq.decoded.kind,
            request := none, response := some resp } ∧
      resp.uid = podRequest.uid :=
  (handler_uid_echo_spec { whiteListRegistries := ["docker.io/"] }
    validateHttpReq podRequest rfl rfl rfl rfl).1 (Or.inl rfl)

/-- C5: when the body is non-empty with JSON content-type but fails to
decode, the handler still writes an envelope (no transport-level error): it
echoes the decoded variable's apiVersion/kind, and the response carries
allowed=false, a 500 result with the decode error message, and no patch.
The right-hand side mentions neither the path nor the whitelist, so no
policy result enters the reply. -/
theorem handler_decode_error_spec (s : WebhookServer) (r : HttpRequest)
    (e : String) (hbody : r.bodyEmpty = false)
    (hct : r.contentType = "application/json")
    (herr : r.decodeErr = some e) :
    Handler s r = HttpResult.ok
      { apiVersion := r.decoded.apiVersion, kind := r.decoded.kind,
        request := none,
        response := some
          { uid := uidOf r.decoded.request, allowed := false,
            result := some { code := 500, message := e },
            patch := none, patchType := none } } := by
  cases hq : r.decoded.request <;>
    simp [Handler, hbody, hct, herr, hq, uidOf]

/-- Witness for C5: a malformed body produces the 500-result envelope. -/
theorem handler_decode_error_spec_witness :
    Handler { whiteListRegistries := [] }
      { bodyEmpty := false, contentType := "application/json",
        path := "/validate", decodeErr := some "bad json",
        decoded :=
          { apiVersion := "", kind := "", request := none,
            response := none } } =
      HttpResult.ok
        { apiVersion := "", kind := "", request := none,
          response := some
            { uid := "", allowed := false,
              result := some { code := 500, message := "bad json" },
              patch := none, patchType := none } } :=
  handler_decode_error_spec { whiteListRegistries := [] } _ "bad json"
    rfl rfl rfl

/-- C6: a mutate request of a kind other than Deployment or Service gets
allowed=false (the zero value), a 400 result whose message names the kind,
and no patch. -/
theorem mutate_unsupported_kind_spec (ar : AdmissionReview)
    (req : AdmissionRequest) (h : ar.request = some req)
    (h1 : req.kind ≠ "Deployment") (h2 : req.kind ≠ "Service") :
    mutate ar = Except.ok
      { uid := "", allowed := false,
        result := some { code := 400, message := kindErrMsg req.kind },
        patch := none, patchType := none } := by
  simp [mutate, h, h1, h2]

/-- Witness for C6: a ConfigMap is rejected with the 400 result naming it. -/
theorem mutate_unsupported_kind_spec_witness :
    mutate
      { apiVersion := "admission.k8s.io/v1", kind := "AdmissionReview",
        request := some
          { uid := "u2", kind := "ConfigMap", namespc := "default",
            name := "cm1",
            object :=
              { asPod := Except.error "no", asDeployment := Except.error "no",
                asService := Except.error "no" } },
        response := none } =
      Except.ok
        { uid := "", allowed := false,
          result := some { code := 400, message := kindErrMsg "ConfigMap" },
          patch := none, patchType := none } :=
  mutate_unsupported_kind_spec _ _ rfl (by decide) (by decide)

/-- C7: on a supported kind whose metadata has a nil annotation map or an
empty/absent status value, when mutation is required `mutate` responds
allowed=true with patch type JSONPatch and the single `add` operation at
/metadata/annotations carrying the single-entry status map. -/
theorem mutate_add_patch_spec (ar : AdmissionReview) (req : AdmissionRequest)
    (metadata : ObjectMeta) (h : ar.request = some req)
    (hkind : (req.kind = "Deployment" ∧
        req.object.asDeployment = Except.ok metadata) ∨
      (req.kind = "Service" ∧ req.object.asService = Except.ok metadata))
    (hann : metadata.annots = none ∨
      mapGet metadata.annots AnnotationStatusKey = "")
    (hreqd : mutationRequired metadata = true) :
    mutate ar = Except.ok
      { uid := "", allowed := true, result := none,
        patch := some [statusAddOp], patchType := some "JSONPatch" } := by
  rw [mutate_eq_mutateMeta ar req metadata h hkind]
  have hp : mutateAnnotations metadata.annots
      [(AnnotationStatusKey, "mutated")] = [statusAddOp] := by
    rcases hann with hann | hann
    · simp [mutateAnnotations, hann, statusAddOp]
    · simp [mutateAnnotations, hann, statusAddOp]
  simp [mutateMeta, hreqd, hp]

/-- Witness for C7: a Deployment with no annotation map gets the add
patch. -/
theorem mutate_add_patch_spec_witness :
    mutate deployReview = Except.ok
      { uid := "", allowed := true, result := none,
        patch := some [statusAddOp], patchType := some "JSONPatch" } :=
  mutate_add_patch_spec deployReview deployRequest noAnnotsMeta rfl
    (Or.inl ⟨rfl, rfl⟩) (Or.inl rfl) (by decide)

/-- C8: an empty (or unreadable) body yields HTTP 400 with the literal body
"empty data body" no matter the content-type; the content-type check
rejects non-JSON with HTTP 400 only once the body is known non-empty. -/
theorem handler_empty_body_spec (s : WebhookServer) (r : HttpRequest) :
    (r.bodyEmpty = true →
      Handler s r = HttpResult.httpError 400 "empty data body")
  ∧ (r.bodyEmpty = false → r.contentType ≠ "application/json" →
      Handler s r = HttpResult.httpError 400
        "Content-Type invalid, expect application/json") := by
  constructor
  · intro h
    simp [Handler, h]
  · intro h hct
    simp [Handler, h, hct]

/-- Witness for C8: an empty body with a non-JSON content-type still gets
the empty-body error, and a non-empty body with that content-type gets the
content-type error. -/
theorem handler_empty_body_spec_witness :
    Handler { whiteListRegistries := [] } emptyBodyHttpReq =
      HttpResult.httpError 400 "empty data body"
  ∧ Handler { whiteListRegistries := [] } badCtHttpReq =
      HttpResult.httpError 400
        "Content-Type invalid, expect application/json" :=
  ⟨(handler_empty_body_spec { whiteListRegistries := [] }
      emptyBodyHttpReq).1 rfl,
   (handler_empty_body_spec { whiteListRegistries := [] }
      badCtHttpReq).2 rfl (by decide)⟩

/-- C9: `validate` and `mutate` read the decoded Request without a nil
check, so a decoded review with a nil Request panics when routed to
/validate or /mutate; the handler itself only guards the nil Request at
the later UID copy, as the last conjunct shows: off the routed paths the
same nil-Request review is serialized without incident. -/
theorem nil_request_panic_spec (s : WebhookServer) (wl : List String)
    (ar : AdmissionReview) (h : ar.request = none) :
    validate wl ar = Except.error nilDerefMsg
  ∧ mutate ar = Except.error nilDerefMsg
  ∧ (∀ r : HttpRequest, r.bodyEmpty = false →
      r.contentType = "application/json" → r.decodeErr = none →
      r.decoded = ar → (r.path = "/validate" ∨ r.path = "/mutate") →
      Handler s r = HttpResult.panicked nilDerefMsg)
  ∧ (∀ r : HttpRequest, r.bodyEmpty = false →
      r.contentType = "application/json" → r.decodeErr = none →
      r.decoded = ar → r.path ≠ "/validate" → r.path ≠ "/mutate" →
      Handler s r = HttpResult.ok
        { apiVersion := ar.apiVersion, kind := ar.kind, request := none,
          response := none }) := by
  refine ⟨by simp [validate, h], by simp [mutate, h], ?_, ?_⟩
  · rintro r hb hct hde hdec (hpath | hpath)
    · simp [Handler, Except.map, hb, hct, hde, hdec, hpath, validate, h,
        show ("/validate" : String) ≠ "/mutate" by decide]
    · simp [Handler, Except.map, hb, hct, hde, hdec, hpath, mutate, h]
  · intro r hb hct hde hdec h1 h2
    simp [Handler, hb, hct, hde, hdec, h1, h2]

/-- Witness for C9: a nil-Request review panics in `validate` and through
the handler on the validate path. -/
theorem nil_request_panic_spec_witness :
    validate [] nilRequestReview = Except.error nilDerefMsg
  ∧ Handler { whiteListRegistries := [] } nilRequestHttpReq =
      HttpResult.panicked nilDerefMsg :=
  ⟨(nil_request_panic_spec { whiteListRegistries := [] } []
      nilRequestReview rfl).1,
   (nil_request_panic_spec { whiteListRegistries := [] } []
      nilRequestReview rfl).2.2.1 nilRequestHttpReq rfl rfl rfl rfl
     (Or.inl rfl)⟩

/-- C10: splitting the empty WHITELIST_REGISTRIES value on a comma yields
the one-element list holding the empty string; with the empty string among
the whitelist entries, every image has it as a prefix, so `validate`
allows every decodable pod. -/
theorem empty_whitelist_entry_spec (wl : List String) (h : "" ∈ wl) :
    goSplitComma "" = [""]
  ∧ "" ∈ goSplitComma ""
  ∧ (∀ pod, validatePod wl pod = allowResp)
  ∧ (∀ ar req pod, ar.request = some req →
      req.object.asPod = Except.ok pod →
      validate wl ar = Except.ok allowResp) := by
  have hall : ∀ pod : Pod, validatePod wl pod = allowResp := by
    intro pod
    rw [validatePod, validateLoop_allow_iff]
    intro c _
    rw [imageWhitelisted_true_iff]
    exact ⟨"", h, by simp [goStartsWith]⟩
  refine ⟨rfl, by simp [goSplitComma, splitCommaList], hall, ?_⟩
  intro ar req pod hreq hpod
  simp [validate, hreq, hpod, hall pod]

/-- Witness for C10: with the whitelist [""], a pod with an arbitrary
registry image is allowed. -/
theorem empty_whitelist_entry_spec_witness :
    validatePod [""] { spec := { containers := [{ image := "evil.io/x" }] } } =
      allowResp :=
  (empty_whitelist_entry_spec [""] (by simp)).2.2.1
    { spec := { containers := [{ image := "evil.io/x" }] } }

end AdmissionRegistry
